import Mathlib

/-!
Shallow embedding of `src/convert.js`, a converter from a Contentful content
export (entries, assets, rich-text documents) to Markdown files with YAML
front matter.  Locale-keyed fields (`fields.x['en-US']`) are modelled as
`Option` values: `some v` means the field is present with en-US value `v`,
`none` means the field is absent (a JS falsy wrapper).  Table nodes carry
their rows as `List (List (List Node))`: the outer list is the row list
(`tableNode.content`), the middle list a row's cells (`row.content`), the
inner list a cell's children (`cell.content`).
-/

/-- Rich-text node, mirroring the `nodeType` discrimination of `processNode`
in `src/convert.js`.  `unknown` is the `default` branch: a node of an
unrecognized type, which carries a child list exactly when the JS node has a
truthy `content` property. -/
inductive Node where
  | document (content : List Node)
  | paragraph (content : List Node)
  | heading2 (content : List Node)
  | heading3 (content : List Node)
  | unorderedList (content : List Node)
  | orderedList (content : List Node)
  | listItem (content : List Node)
  | hyperlink (uri : String) (content : List Node)
  | embeddedAssetBlock (targetId : String)
  | text (value : String) (marks : Option (List String))
  | table (rows : List (List (List Node)))
  | unknown (nodeType : String) (content : Option (List Node))

/-- Asset record: `sys.id`, `fields.file['en-US'].url` (when the `file`
field is present) and `fields.title['en-US']` (when present). -/
structure Asset where
  id : String
  fileUrl : Option String
  title : Option String
deriving DecidableEq

/-- The `fields.content['en-US']` value of an entry: for a page it is an
array of references (modelled by their `sys.id` strings), for a content
block it is a rich-text document node. -/
inductive ContentValue where
  | refs (ids : List String)
  | rich (doc : Node)

/-- The `fields` record of an entry, restricted to the fields the converter
reads. -/
structure EntryFields where
  title : Option String
  description : Option String
  content : Option ContentValue

/-- Entry record: `sys.id`, `sys.contentType.sys.id` and its fields (which
can be absent in a malformed entry, in which case page processing throws). -/
structure Entry where
  id : String
  contentType : String
  fields : Option EntryFields

/-- The deserialized export snapshot (`data` in `src/convert.js`). -/
structure Snapshot where
  entries : List Entry
  assets : List Asset

/-- `findEntry` from `src/convert.js`: linear scan of `data.entries` by id. -/
def findEntry (snap : Snapshot) (id : String) : Option Entry :=
  snap.entries.find? (fun e => e.id == id)

/-- `findAsset` from `src/convert.js`: linear scan of `data.assets` by id. -/
def findAsset (snap : Snapshot) (id : String) : Option Asset :=
  snap.assets.find? (fun a => a.id == id)

/-- The JS `String.prototype.trim()` (used on table cells), modelled over the
character list: drop whitespace from both ends. -/
def jsTrim (s : String) : String :=
  String.mk (((s.data.dropWhile Char.isWhitespace).reverse.dropWhile
    Char.isWhitespace).reverse)

/-- Character-list test used to model `String.prototype.startsWith`. -/
def leadsWith : List Char → List Char → Bool
  | [], _ => true
  | _ :: _, [] => false
  | a :: as, b :: bs => a == b && leadsWith as bs

/-- The JS `url.startsWith('//')` test, modelled over character lists. -/
def jsStartsWith (s pat : String) : Bool :=
  leadsWith pat.data s.data

/-- One iteration of the `node.marks.forEach` loop in the `text` case of
`processNode`: two independent checks on the mark's `type`. -/
def applyMark (text : String) (markType : String) : String :=
  let afterBold := if markType == "bold" then "**" ++ text ++ "**" else text
  if markType == "code" then "`" ++ afterBold ++ "`" else afterBold

mutual

/-- `processNode` from `src/convert.js`. -/
def processNode (snap : Snapshot) : Node → String
  | .document c => String.intercalate "\n\n" (processList snap c)
  | .paragraph c => String.join (processList snap c)
  | .heading2 c => "## " ++ String.join (processList snap c)
  | .heading3 c => "### " ++ String.join (processList snap c)
  | .unorderedList c =>
      String.intercalate "\n" ((processList snap c).map (fun s => "- " ++ s))
  | .orderedList c =>
      String.intercalate "\n"
        (((processList snap c).enum).map (fun p => toString (p.1 + 1) ++ ". " ++ p.2))
  | .listItem c => String.join (processList snap c)
  | .hyperlink uri c => "[" ++ String.join (processList snap c) ++ "](" ++ uri ++ ")"
  | .embeddedAssetBlock targetId =>
      match findAsset snap targetId with
      | some asset =>
          match asset.fileUrl with
          | some url =>
              "\n\n![" ++ asset.title.getD "" ++ "](" ++
                (if jsStartsWith url "//" then "https:" ++ url else url) ++ ")\n\n"
          | none => ""
      | none => ""
  | .text value marks =>
      match marks with
      | some ms => ms.foldl applyMark value
      | none => value
  | .table rows => "\n\n" ++ processTableAux snap 0 rows ++ "\n\n"
  | .unknown _ c =>
      match c with
      | some cs => String.join (processList snap cs)
      | none => ""

/-- Maps `processNode` over a child list (`node.content.map(processNode)`). -/
def processList (snap : Snapshot) : List Node → List String
  | [] => []
  | n :: ns => processNode snap n :: processList snap ns

/-- The cell rendering of `processTable`:
`row.content.map(cell => cell.content.map(processNode).join('').trim())`. -/
def processCells (snap : Snapshot) : List (List Node) → List String
  | [] => []
  | cell :: cs => jsTrim (String.join (processList snap cell)) :: processCells snap cs

/-- The `rows.forEach((row, rowIndex) => ...)` loop of `processTable`:
emits one pipe-delimited line per row and, after the row at index 0, a
separator line with one `---` per cell of that row. -/
def processTableAux (snap : Snapshot) (rowIndex : Nat) : List (List (List Node)) → String
  | [] => ""
  | row :: rest =>
      let cells := processCells snap row
      ("| " ++ String.intercalate " | " cells ++ " |\n" ++
        (if rowIndex == 0 then
          "| " ++ String.intercalate " | " (cells.map (fun _ => "---")) ++ " |\n"
        else "")) ++
      processTableAux snap (rowIndex + 1) rest

end

/-- `processTable` from `src/convert.js`, applied to the row list
(`tableNode.content`). -/
def processTable (snap : Snapshot) (rows : List (List (List Node))) : String :=
  processTableAux snap 0 rows

/-- Whether a JS rich-text node value has a truthy `content` property, as
tested by the `!content.content` guard of `richTextToMarkdown`. -/
def Node.hasContentField : Node → Bool
  | .text .. => false
  | .embeddedAssetBlock .. => false
  | .unknown _ c => c.isSome
  | _ => true

/-- `richTextToMarkdown` from `src/convert.js`.  Its argument is the (truthy)
`fields.content['en-US']` value of a content block; an array value has no
`content` property, so the guard returns the empty string for it. -/
def richTextToMarkdown (snap : Snapshot) (content : ContentValue) : String :=
  match content with
  | .refs _ => ""
  | .rich node => if node.hasContentField then processNode snap node else ""

/-- Whether a character survives the slug regex `[^a-z0-9]+` after
lowercasing: a lowercase ASCII letter or a digit. -/
def isSlugChar (c : Char) : Bool :=
  (97 ≤ c.toNat && c.toNat ≤ 122) || (48 ≤ c.toNat && c.toNat ≤ 57)

/-- The `.replace(/[^a-z0-9]+/g, '-')` step of the filename derivation:
every maximal run of non slug characters becomes a single hyphen.  The
boolean records whether the previous character was part of such a run. -/
def collapseRuns : Bool → List Char → List Char
  | _, [] => []
  | inRun, c :: cs =>
      if isSlugChar c then c :: collapseRuns false cs
      else if inRun then collapseRuns true cs
      else '-' :: collapseRuns true cs

/-- Drop a single leading hyphen, as the `^-` alternative of
`.replace(/^-|-$/g, '')` does. -/
def dropLeadHyphen (l : List Char) : List Char :=
  match l with
  | c :: rest => if c == '-' then rest else l
  | [] => []

/-- The `.replace(/^-|-$/g, '')` step: remove the first character when it is
a hyphen and, independently, the last character when it is a hyphen. -/
def stripEdgeHyphens (l : List Char) : List Char :=
  (dropLeadHyphen (dropLeadHyphen l).reverse).reverse

/-- The filename derivation of `src/convert.js` (lines 154-156):
`title.toLowerCase().replace(/[^a-z0-9]+/g, '-').replace(/^-|-$/g, '') + '.mdx'`. -/
def createFilename (title : String) : String :=
  String.mk (stripEdgeHyphens (collapseRuns false (title.data.map Char.toLower))) ++
    ".mdx"

/-- A page conversion result: the derived filename and the assembled
Markdown document (the write itself is out of scope). -/
structure PageOutput where
  filename : String
  content : String
deriving DecidableEq

/-- The body of the `contentRefs.forEach` loop (lines 137-150): resolve the
referenced block; when found and it has fields, emit the optional `###`
block title and the rendered rich-text content, each followed by a blank
line. -/
def renderContentRef (snap : Snapshot) (refId : String) : String :=
  match findEntry snap refId with
  | none => ""
  | some block =>
      match block.fields with
      | none => ""
      | some blockFields =>
          (match blockFields.title with
           | some t => if t == "" then "" else "### " ++ t ++ "\n\n"
           | none => "") ++
          (match blockFields.content with
           | some cv => richTextToMarkdown snap cv ++ "\n\n"
           | none => "")

/-- The per-page assembly (lines 117-156) once `page.fields` has been read
successfully.  A page whose `content['en-US']` value is a rich-text document
rather than a reference array makes `contentRefs.forEach` throw, modelled by
`Except.error`. -/
def assembleFromFields (snap : Snapshot) (fields : EntryFields) :
    Except String PageOutput :=
  let title := fields.title.getD "Untitled"
  let description := fields.description.getD ""
  let fm :=
    "---\ntitle: \"" ++ title ++ "\"\n" ++
    (if description == "" then "" else "description: \"" ++ description ++ "\"\n") ++
    "---\n\n"
  let headingPart := "# " ++ title ++ "\n\n"
  let descPart := if description == "" then "" else description ++ "\n\n"
  match fields.content with
  | some (.rich _) => .error "contentRefs.forEach is not a function"
  | some (.refs ids) =>
      .ok ⟨createFilename title,
        fm ++ headingPart ++ descPart ++ String.join (ids.map (renderContentRef snap))⟩
  | none => .ok ⟨createFilename title, fm ++ headingPart ++ descPart⟩

/-- One iteration of the `pages.forEach` body: reading the fields of an
entry without a `fields` record throws a `TypeError`, modelled by
`Except.error`; otherwise the page is assembled. -/
def processPage (snap : Snapshot) (page : Entry) : Except String PageOutput :=
  match page.fields with
  | none => .error "Cannot read properties of undefined (reading title)"
  | some fields => assembleFromFields snap fields

/-- The page selection (line 111): entries whose content type id is `page`. -/
def pagesOf (snap : Snapshot) : List Entry :=
  snap.entries.filter (fun e => e.contentType == "page")

/-- The files the batch writes for a given list of pages: the successful
conversions, in order; failed pages contribute nothing. -/
def writtenFiles (snap : Snapshot) (ps : List Entry) : List PageOutput :=
  ps.filterMap (fun p => (processPage snap p).toOption)

/-- The error lines the batch reports: the index and message of every page
whose processing threw. -/
def reportedErrors (snap : Snapshot) : List (Nat × String) :=
  (pagesOf snap).enum.filterMap (fun p =>
    match processPage snap p.2 with
    | .error msg => some (p.1, msg)
    | .ok _ => none)

/-- Explicit concatenation of a list of strings, used in spec-side
statements; equal to `String.join`. -/
def concatAll : List String → String
  | [] => ""
  | s :: rest => s ++ concatAll rest

/-! Spec-side definitions, written from the words of the specification, to
be compared with the definitions translated from the source. -/

/-- Spec wording for one style mark: `bold` wraps the current result in
`**...**`, `code` wraps it in backticks, any other mark type leaves it
unchanged. -/
def specApplyMark (result : String) (markType : String) : String :=
  if markType == "bold" then "**" ++ result ++ "**"
  else if markType == "code" then "`" ++ result ++ "`"
  else result

/-- Spec wording for a table row line: pipe-delimited cells. -/
def specRowLine (cells : List String) : String :=
  "| " ++ String.intercalate " | " cells ++ " |\n"

/-- Spec wording for the separator line: `---` placeholders matching a given
column count. -/
def specSeparatorLine (columnCount : Nat) : String :=
  "| " ++ String.intercalate " | " (List.replicate columnCount "---") ++ " |\n"

/-- Spec wording for the whole table: the first row's line, then exactly one
separator line with the first row's column count, then the remaining rows'
lines in order. -/
def specTableMarkdown (firstRow : List String) (otherRows : List (List String)) :
    String :=
  specRowLine firstRow ++ specSeparatorLine firstRow.length ++
    concatAll (otherRows.map specRowLine)

/-- Spec wording for the filename: lowercase, replace every maximal run of
non-alphanumeric characters with a single hyphen, strip leading and trailing
hyphens, append `.mdx`. -/
def specCreateFilename (title : String) : String :=
  let collapsed := collapseRuns false (title.data.map Char.toLower)
  String.mk (((collapsed.dropWhile (fun c => c == '-')).reverse.dropWhile
    (fun c => c == '-')).reverse) ++ ".mdx"

/-- Substring occurrence test over character lists (used to state that an
output does not contain a front-matter line). -/
def hasSub (pat : List Char) (s : List Char) : Bool :=
  match s with
  | [] => leadsWith pat []
  | _ :: rest => leadsWith pat s || hasSub pat rest

/-- Splits a character list at newline characters (the semantics of a JS
`split('\n')`): `"x\n"` gives two pieces, the second empty. -/
def splitLinesAux : List Char → List (List Char)
  | [] => [[]]
  | c :: rest =>
      match splitLinesAux rest with
      | [] => []
      | line :: more =>
          if c == '\n' then [] :: line :: more else (c :: line) :: more

/-- The list of newline-separated pieces of a string. -/
def linesOf (s : String) : List String :=
  (splitLinesAux s.data).map String.mk

/-- The empty export snapshot. -/
def emptySnapshot : Snapshot := ⟨[], []⟩

/-- A snapshot with one asset that has a protocol-relative file URL and a
title, and one asset without a file descriptor. -/
def assetSnap : Snapshot :=
  ⟨[], [⟨"img1", some "//images.example.com/a.png", some "Pic"⟩,
        ⟨"nofile1", none, some "X"⟩]⟩

/-- A page whose single content reference resolves to nothing. -/
def introPage : Entry :=
  ⟨"p1", "page", some ⟨some "Intro", some "Welcome", some (.refs ["ghost"])⟩⟩

/-- A snapshot whose first page lacks a `fields` record (processing it
throws) and whose second page is well-formed. -/
def mixedSnap : Snapshot :=
  ⟨[⟨"bad", "page", none⟩, ⟨"good", "page", some ⟨some "G", none, none⟩⟩], []⟩

/-- A page entry whose description field is present but holds the empty
string. -/
def emptyDescPage : Entry := ⟨"p1", "page", some ⟨some "T", some "", none⟩⟩

theorem foldl_append_eq_concatAll (l : List String) :
    ∀ s : String, l.foldl (· ++ ·) s = s ++ concatAll l := by
  induction l with
  | nil => intro s; simp [concatAll]
  | cons a rest ih =>
      intro s
      simp only [List.foldl_cons, concatAll, ih, String.append_assoc]

theorem join_eq_concatAll (l : List String) : String.join l = concatAll l := by
  have h := foldl_append_eq_concatAll l ""
  simpa [String.join, String.empty_append] using h

theorem processTableAux_pos (snap : Snapshot) :
    ∀ (rest : List (List (List Node))) (i : Nat),
      processTableAux snap (i + 1) rest =
        concatAll (rest.map (fun r => specRowLine (processCells snap r))) := by
  intro rest
  induction rest with
  | nil => intro i; rfl
  | cons r rs ih =>
      intro i
      rw [processTableAux]
      simp only [Nat.add_one_ne_zero, beq_eq_false_iff_ne, ne_eq, if_neg,
        List.map_cons, concatAll, ih (i + 1), specRowLine]
      simp [String.append_assoc, String.append_empty]

theorem applyMark_eq_spec (r m : String) : applyMark r m = specApplyMark r m := by
  unfold applyMark specApplyMark
  by_cases hb : m = "bold"
  · subst hb; simp
  · by_cases hc : m = "code"
    · subst hc; simp
    · simp [hb, hc]

/-- Claim C1: a text node renders as its literal value with each style mark
applied as a wrap in listed order, each wrap nesting around the previous
result: `bold` wraps in `**...**`, `code` wraps in backticks, any other mark
type leaves the result unchanged. -/
theorem text_marks_applied_in_listed_order (snap : Snapshot) (v : String)
    (ms : List String) :
    processNode snap (.text v (some ms)) = ms.foldl specApplyMark v := by
  show ms.foldl applyMark v = ms.foldl specApplyMark v
  have h : applyMark = specApplyMark := funext fun r => funext fun m => applyMark_eq_spec r m
  rw [h]

/-- Claim C2 counterexample: for a text node with value `v` and marks
`[bold, code]` in that listed order, the source applies `bold` first and
then wraps the result in backticks, so the render is `` `**v**` `` and not
the claimed `` **`v`** `` (bold outermost). -/
theorem text_bold_code_render_counterexample :
    processNode emptySnapshot (.text "v" (some ["bold", "code"])) = "`**v**`" ∧
    processNode emptySnapshot (.text "v" (some ["bold", "code"])) ≠ "**`v`**" := by
  constructor
  · rfl
  · decide

/-- Claim C2 amended: with marks exactly `[bold]` render is `**v**`; with
`[code]` it is `` `v` ``; with `[bold, code]` in that listed order the bold
wrap is innermost and the backtick wrap outermost: `` `**v**` ``. -/
theorem text_single_and_double_marks (snap : Snapshot) (v : String) :
    processNode snap (.text v (some ["bold"])) = "**" ++ v ++ "**" ∧
    processNode snap (.text v (some ["code"])) = "`" ++ v ++ "`" ∧
    processNode snap (.text v (some ["bold", "code"])) =
      "`" ++ ("**" ++ v ++ "**") ++ "`" :=
  ⟨rfl, rfl, rfl⟩

/-- Claim C3: for a table with at least one row, the source renders one
pipe-delimited line per row in original order (cells rendered by
concatenating their children's renderings and trimming), with exactly one
separator line of `---` placeholders matching the first row's column count,
immediately after row 0 and nowhere else; a concrete 2x3 table yields
exactly 3 lines, the second being `| --- | --- | --- |`. -/
theorem table_rows_and_separator (snap : Snapshot) (r0 : List (List Node))
    (rest : List (List (List Node))) :
    processTable snap (r0 :: rest) =
      specTableMarkdown (processCells snap r0) (rest.map (processCells snap)) ∧
    linesOf (processTable emptySnapshot
        [[[.text " a " none], [.text "b" none], [.text "c" none]],
         [[.text "d" none], [.text "e" none], [.text "f" none]]]) =
      ["| a | b | c |", "| --- | --- | --- |", "| d | e | f |", ""] := by
  constructor
  · show processTableAux snap 0 (r0 :: rest) = _
    rw [processTableAux]
    simp only [show ((0 : Nat) == 0) = true from rfl, if_pos, processTableAux_pos,
      specTableMarkdown, specRowLine, specSeparatorLine, List.map_map]
    rw [List.map_const']
    simp [specRowLine, String.append_assoc, Function.comp_def]
  · rfl

/-- Claim C4: an embedded-asset-block whose asset id is not in the index, or
whose asset has no file descriptor, renders as the empty string (no
exception); a found asset with a file descriptor renders as
`\n\n![title](url)\n\n` with the title defaulting to the empty string. -/
theorem embedded_asset_rendering (snap : Snapshot) (id : String) :
    (findAsset snap id = none → processNode snap (.embeddedAssetBlock id) = "") ∧
    (∀ a, findAsset snap id = some a → a.fileUrl = none →
      processNode snap (.embeddedAssetBlock id) = "") ∧
    (∀ a u, findAsset snap id = some a → a.fileUrl = some u →
      processNode snap (.embeddedAssetBlock id) =
        "\n\n![" ++ a.title.getD "" ++ "](" ++
          (if jsStartsWith u "//" then "https:" ++ u else u) ++ ")\n\n") := by
  refine ⟨fun h => ?_, fun a ha hf => ?_, fun a u ha hf => ?_⟩
  · simp [processNode, h]
  · simp [processNode, ha, hf]
  · simp [processNode, ha, hf]

/-- Claim C4 witness: concrete missing asset, asset without file, and asset
with file and title. -/
theorem embedded_asset_rendering_witness :
    processNode assetSnap (.embeddedAssetBlock "ghost") = "" ∧
    processNode assetSnap (.embeddedAssetBlock "nofile1") = "" ∧
    processNode assetSnap (.embeddedAssetBlock "img1") =
      "\n\n![Pic](https://images.example.com/a.png)\n\n" :=
  ⟨(embedded_asset_rendering assetSnap "ghost").1 rfl,
   (embedded_asset_rendering assetSnap "nofile1").2.1 ⟨"nofile1", none, some "X"⟩ rfl rfl,
   (embedded_asset_rendering assetSnap "img1").2.2
     ⟨"img1", some "//images.example.com/a.png", some "Pic"⟩
     "//images.example.com/a.png" rfl rfl⟩

/-- Claim C8: a resolved asset URL beginning with `//` is emitted with the
`https:` scheme prepended; any other URL is emitted verbatim. -/
theorem protocol_relative_url_rewritten (snap : Snapshot) (id : String)
    (a : Asset) (u : String) (ha : findAsset snap id = some a)
    (hu : a.fileUrl = some u) :
    (jsStartsWith u "//" = true →
      processNode snap (.embeddedAssetBlock id) =
        "\n\n![" ++ a.title.getD "" ++ "](" ++ ("https:" ++ u) ++ ")\n\n") ∧
    (jsStartsWith u "//" = false →
      processNode snap (.embeddedAssetBlock id) =
        "\n\n![" ++ a.title.getD "" ++ "](" ++ u ++ ")\n\n") := by
  constructor <;> intro hs <;> simp [processNode, ha, hu, hs]

/-- Claim C8 witness: `//images.example.com/a.png` renders as
`https://images.example.com/a.png` in the image tag. -/
theorem protocol_relative_url_rewritten_witness :
    processNode assetSnap (.embeddedAssetBlock "img1") =
      "\n\n![Pic](https://images.example.com/a.png)\n\n" :=
  (protocol_relative_url_rewritten assetSnap "img1"
    ⟨"img1", some "//images.example.com/a.png", some "Pic"⟩
    "//images.example.com/a.png" rfl rfl).1 rfl

theorem concatAll_replicate_empty : ∀ n : Nat, concatAll (List.replicate n "") = "" := by
  intro n
  induction n with
  | zero => rfl
  | succ k ih => simp [List.replicate, concatAll, ih, String.empty_append]

/-- Claim C5: a page all of whose content references point to ids absent
from the entity index still assembles successfully, producing only front
matter, the level-1 title heading and the description paragraph if present;
each unresolved reference contributes nothing. -/
theorem page_with_unresolved_refs (snap : Snapshot) (page : Entry)
    (fields : EntryFields) (ids : List String)
    (hf : page.fields = some fields)
    (hc : fields.content = some (.refs ids))
    (hmiss : ∀ id ∈ ids, findEntry snap id = none) :
    processPage snap page =
      .ok ⟨createFilename (fields.title.getD "Untitled"),
        "---\ntitle: \"" ++ fields.title.getD "Untitled" ++ "\"\n" ++
          (if fields.description.getD "" == "" then ""
           else "description: \"" ++ fields.description.getD "" ++ "\"\n") ++
          "---\n\n" ++ ("# " ++ fields.title.getD "Untitled" ++ "\n\n") ++
          (if fields.description.getD "" == "" then ""
           else fields.description.getD "" ++ "\n\n")⟩ := by
  have hrefs : ids.map (renderContentRef snap) = List.replicate ids.length "" := by
    rw [← List.map_const']
    exact List.map_congr_left fun id hid => by simp [renderContentRef, hmiss id hid]
  simp only [processPage, hf, assembleFromFields, hc, hrefs, join_eq_concatAll,
    concatAll_replicate_empty]
  simp [String.append_assoc, String.append_empty]

/-- Claim C5 witness: the page produces front matter, heading and
description only. -/
theorem page_with_unresolved_refs_witness :
    processPage ⟨[introPage], []⟩ introPage =
      .ok ⟨"intro.mdx",
        "---\ntitle: \"Intro\"\ndescription: \"Welcome\"\n---\n\n# Intro\n\nWelcome\n\n"⟩ :=
  page_with_unresolved_refs ⟨[introPage], []⟩ introPage
    ⟨some "Intro", some "Welcome", some (.refs ["ghost"])⟩ ["ghost"] rfl rfl
    (by intro id hid; simp at hid; subst hid; rfl)

theorem filterMap_eraseIdx_of_none {α β : Type} (f : α → Option β) :
    ∀ (l : List α) (i : Nat) (a : α), l[i]? = some a → f a = none →
      (l.eraseIdx i).filterMap f = l.filterMap f := by
  intro l
  induction l with
  | nil => intro i a h _; simp at h
  | cons x xs ih =>
      intro i a h hf
      cases i with
      | zero =>
          simp only [List.getElem?_cons_zero, Option.some.injEq] at h
          subst h
          simp [List.eraseIdx, List.filterMap_cons, hf]
      | succ n =>
          simp only [List.getElem?_cons_succ] at h
          cases hfx : f x <;>
            simp [List.eraseIdx, List.filterMap_cons, hfx, ih n a h hf]

/-- Claim C6: a page whose processing throws is reported with its index and
message, and dropping it from the batch leaves the outputs of every other
page unchanged: one page's fault never aborts or perturbs the batch. -/
theorem failing_page_isolated (snap : Snapshot) (i : Nat) (p : Entry)
    (msg : String) (hp : (pagesOf snap)[i]? = some p)
    (he : processPage snap p = .error msg) :
    (i, msg) ∈ reportedErrors snap ∧
    writtenFiles snap ((pagesOf snap).eraseIdx i) =
      writtenFiles snap (pagesOf snap) := by
  constructor
  · unfold reportedErrors
    rw [List.mem_filterMap]
    exact ⟨(i, p), by rw [List.mk_mem_enum_iff_getElem?]; exact hp, by simp [he]⟩
  · unfold writtenFiles
    apply filterMap_eraseIdx_of_none _ _ i p hp
    simp [he, Except.toOption]

/-- Claim C6 witness: the bad page at index 0 is reported and the batch
output equals the output of the batch without it. -/
theorem failing_page_isolated_witness :
    (0, "Cannot read properties of undefined (reading title)") ∈
      reportedErrors mixedSnap ∧
    writtenFiles mixedSnap ((pagesOf mixedSnap).eraseIdx 0) =
      writtenFiles mixedSnap (pagesOf mixedSnap) :=
  failing_page_isolated mixedSnap 0 ⟨"bad", "page", none⟩
    "Cannot read properties of undefined (reading title)" rfl rfl

theorem isSlugChar_ne_hyphen {c : Char} (h : isSlugChar c = true) : c ≠ '-' := by
  intro hc
  subst hc
  exact absurd h (by decide)

theorem collapseRuns_true_head :
    ∀ (cs : List Char) (c : Char) (rest : List Char),
      collapseRuns true cs = c :: rest → isSlugChar c = true := by
  intro cs
  induction cs with
  | nil => intro c rest h; simp [collapseRuns] at h
  | cons x xs ih =>
      intro c rest h
      by_cases hx : isSlugChar x
      · rw [collapseRuns, if_pos hx] at h
        cases h
        exact hx
      · rw [collapseRuns, if_neg hx, if_pos rfl] at h
        exact ih c rest h

theorem collapseRuns_chain :
    ∀ (cs : List Char) (b : Bool),
      List.Chain' (fun a c => ¬(a = '-' ∧ c = '-')) (collapseRuns b cs) := by
  intro cs
  induction cs with
  | nil => intro b; simp [collapseRuns]
  | cons x xs ih =>
      intro b
      by_cases hx : isSlugChar x
      · rw [collapseRuns, if_pos hx, List.chain'_cons']
        refine ⟨fun y _ hxy => isSlugChar_ne_hyphen hx hxy.1, ih false⟩
      · cases b with
        | true => rw [collapseRuns, if_neg hx, if_pos rfl]; exact ih true
        | false =>
            rw [collapseRuns, if_neg hx, if_neg (by simp), List.chain'_cons']
            refine ⟨fun y hy hxy => ?_, ih true⟩
            cases hh : collapseRuns true xs with
            | nil => rw [hh] at hy; simp at hy
            | cons z zs =>
                rw [hh] at hy
                simp only [List.head?_cons, Option.mem_def, Option.some.injEq] at hy
                subst hy
                exact isSlugChar_ne_hyphen (collapseRuns_true_head xs z zs hh) hxy.2

theorem dropLeadHyphen_eq_dropWhile {l : List Char}
    (h : List.Chain' (fun a c => ¬(a = '-' ∧ c = '-')) l) :
    dropLeadHyphen l = l.dropWhile (fun c => c == '-') := by
  cases l with
  | nil => rfl
  | cons x rest =>
      by_cases hx : x = '-'
      · subst hx
        rw [dropLeadHyphen, List.dropWhile]
        simp only [show (('-' : Char) == '-') = true from rfl, if_pos]
        cases rest with
        | nil => rfl
        | cons y ys =>
            have hy : ¬('-' = '-' ∧ y = '-') := (List.chain'_cons.mp h).1
            have hy' : (y == '-') = false := by
              simp only [beq_eq_false_iff_ne, ne_eq]
              exact fun hyy => hy ⟨rfl, hyy⟩
            rw [List.dropWhile]
            simp [hy']
      · have hx' : (x == '-') = false := by
          simp only [beq_eq_false_iff_ne, ne_eq]
          exact hx
        rw [dropLeadHyphen, List.dropWhile]
        simp [hx']

theorem stripEdge_eq_dropWhile_of_chain {l : List Char}
    (h : List.Chain' (fun a c => ¬(a = '-' ∧ c = '-')) l) :
    stripEdgeHyphens l =
      ((l.dropWhile (fun c => c == '-')).reverse.dropWhile (fun c => c == '-')).reverse := by
  unfold stripEdgeHyphens
  rw [dropLeadHyphen_eq_dropWhile h]
  have h1 : List.Chain' (fun a c => ¬(a = '-' ∧ c = '-'))
      (l.dropWhile (fun c => c == '-')) :=
    h.suffix (List.dropWhile_suffix _)
  have h2 : List.Chain' (fun a c => ¬(a = '-' ∧ c = '-'))
      (l.dropWhile (fun c => c == '-')).reverse := by
    rw [List.chain'_reverse]
    exact h1.imp fun a c hac => fun hca => hac ⟨hca.2, hca.1⟩
  rw [dropLeadHyphen_eq_dropWhile h2]

/-- Claim C7: the derived filename is the title lowercased, every maximal
run of non-alphanumeric characters replaced by a single hyphen, leading and
trailing hyphens stripped, with `.mdx` appended; `"Hello, World!  2024"`
gives `hello-world-2024.mdx` and an all-symbol title gives the bare
extension `.mdx`. -/
theorem filename_derivation :
    (∀ t : String, createFilename t = specCreateFilename t) ∧
    createFilename "Hello, World!  2024" = "hello-world-2024.mdx" ∧
    createFilename "!@#$%" = ".mdx" := by
  refine ⟨fun t => ?_, rfl, rfl⟩
  unfold createFilename specCreateFilename
  congr 2
  exact stripEdge_eq_dropWhile_of_chain (collapseRuns_chain _ false)

/-- Claim C9 counterexample: for a page whose description field is present
with the empty-string value, the emitted document contains no
`description` line at all, contradicting the claim that the line is emitted
whenever the field is present. -/
theorem present_empty_description_no_line :
    processPage ⟨[emptyDescPage], []⟩ emptyDescPage =
      .ok ⟨"t.mdx", "---\ntitle: \"T\"\n---\n\n# T\n\n"⟩ ∧
    hasSub "description".data "---\ntitle: \"T\"\n---\n\n# T\n\n".data = false :=
  ⟨rfl, rfl⟩

/-- Claim C9 amended: the `description: "<description>"` line is emitted
between the title line and the closing `---`, with the description
paragraph after the heading, exactly when the present description value is
non-empty; a present empty-string description is treated like an absent
one. -/
theorem description_emission (snap : Snapshot) (page : Entry)
    (fields : EntryFields) (hf : page.fields = some fields)
    (hc : fields.content = none ∨ ∃ ids, fields.content = some (.refs ids)) :
    (∀ d, fields.description = some d → d ≠ "" →
      ∃ rest, processPage snap page =
        .ok ⟨createFilename (fields.title.getD "Untitled"),
          "---\ntitle: \"" ++ fields.title.getD "Untitled" ++ "\"\n" ++
            ("description: \"" ++ d ++ "\"\n") ++ "---\n\n" ++
            ("# " ++ fields.title.getD "Untitled" ++ "\n\n") ++
            (d ++ "\n\n") ++ rest⟩) ∧
    (fields.description = some "" →
      processPage snap page =
        processPage snap
          { page with fields := some { fields with description := none } }) := by
  constructor
  · intro d hd hne
    have hd' : (d == "") = false := by
      simp only [beq_eq_false_iff_ne, ne_eq]
      exact hne
    rcases hc with hnone | ⟨ids, hrefs⟩
    · refine ⟨"", ?_⟩
      simp only [processPage, hf, assembleFromFields, hnone, hd, Option.getD_some, hd']
      simp [String.append_assoc, String.append_empty]
    · refine ⟨String.join (ids.map (renderContentRef snap)), ?_⟩
      simp only [processPage, hf, assembleFromFields, hrefs, hd, Option.getD_some, hd']
      simp [String.append_assoc]
  · intro hd0
    simp [processPage, hf, assembleFromFields, hd0]

/-- Claim C9 witness: a concrete page with the non-empty description
`Welcome` gets the description line in its front matter and the paragraph
after the heading. -/
theorem description_emission_witness :
    ∃ rest, processPage ⟨[introPage], []⟩ introPage =
      .ok ⟨"intro.mdx",
        "---\ntitle: \"Intro\"\n" ++ "description: \"Welcome\"\n" ++ "---\n\n" ++
          "# Intro\n\n" ++ "Welcome\n\n" ++ rest⟩ :=
  (description_emission ⟨[introPage], []⟩ introPage
      ⟨some "Intro", some "Welcome", some (.refs ["ghost"])⟩ rfl
      (Or.inr ⟨["ghost"], rfl⟩)).1 "Welcome" rfl (by decide)

theorem createFilename_empty : createFilename "" = ".mdx" := rfl

theorem createFilename_untitled : createFilename "Untitled" = "untitled.mdx" := rfl

/-- Claim C10 counterexample: a page whose title field is present with the
empty string does not behave like one with the title absent: the empty
string is used verbatim in front matter, heading and filename, while the
absent title defaults to `Untitled`. -/
theorem empty_title_counterexample :
    processPage emptySnapshot ⟨"p1", "page", some ⟨some "", none, none⟩⟩ =
      .ok ⟨".mdx", "---\ntitle: \"\"\n---\n\n# \n\n"⟩ ∧
    processPage emptySnapshot ⟨"p1", "page", some ⟨none, none, none⟩⟩ =
      .ok ⟨"untitled.mdx", "---\ntitle: \"Untitled\"\n---\n\n# Untitled\n\n"⟩ ∧
    processPage emptySnapshot ⟨"p1", "page", some ⟨some "", none, none⟩⟩ ≠
      processPage emptySnapshot ⟨"p1", "page", some ⟨none, none, none⟩⟩ :=
  ⟨rfl, rfl, by
    intro h
    have h2 : (⟨".mdx", "---\ntitle: \"\"\n---\n\n# \n\n"⟩ : PageOutput) =
        ⟨"untitled.mdx", "---\ntitle: \"Untitled\"\n---\n\n# Untitled\n\n"⟩ :=
      Except.ok.inj h
    exact absurd (congrArg PageOutput.filename h2) (by decide)⟩

/-- Claim C10 amended: a title field present with the empty string is used
verbatim — empty title in the front matter and heading, filename `.mdx` —
while only an absent title field defaults to `Untitled` (filename
`untitled.mdx`). -/
theorem empty_title_used_verbatim (snap : Snapshot) (page : Entry)
    (fields : EntryFields) (hf : page.fields = some fields)
    (ht : fields.title = some "")
    (hc : fields.content = none ∨ ∃ ids, fields.content = some (.refs ids)) :
    (∃ rest, processPage snap page =
      .ok ⟨".mdx",
        "---\ntitle: \"" ++ "" ++ "\"\n" ++
          (if fields.description.getD "" == "" then ""
           else "description: \"" ++ fields.description.getD "" ++ "\"\n") ++
          "---\n\n" ++ ("# " ++ "" ++ "\n\n") ++
          (if fields.description.getD "" == "" then ""
           else fields.description.getD "" ++ "\n\n") ++ rest⟩) ∧
    (∃ out2,
      processPage snap { page with fields := some { fields with title := none } } =
        .ok out2 ∧ out2.filename = "untitled.mdx") := by
  constructor
  · rcases hc with hnone | ⟨ids, hrefs⟩
    · refine ⟨"", ?_⟩
      simp only [processPage, hf, assembleFromFields, hnone, ht, Option.getD_some,
        createFilename_empty]
      simp [String.append_assoc, String.append_empty]
    · refine ⟨String.join (ids.map (renderContentRef snap)), ?_⟩
      simp only [processPage, hf, assembleFromFields, hrefs, ht, Option.getD_some,
        createFilename_empty]
  · rcases hc with hnone | ⟨ids, hrefs⟩
    · have hpp : processPage snap
            { page with fields := some { fields with title := none } } =
          .ok ⟨createFilename "Untitled",
            "---\ntitle: \"" ++ "Untitled" ++ "\"\n" ++
              (if fields.description.getD "" == "" then ""
               else "description: \"" ++ fields.description.getD "" ++ "\"\n") ++
              "---\n\n" ++ ("# " ++ "Untitled" ++ "\n\n") ++
              (if fields.description.getD "" == "" then ""
               else fields.description.getD "" ++ "\n\n")⟩ := by
        simp only [processPage, assembleFromFields, hnone, Option.getD_none]
      exact ⟨_, hpp, createFilename_untitled⟩
    · have hpp : processPage snap
            { page with fields := some { fields with title := none } } =
          .ok ⟨createFilename "Untitled",
            "---\ntitle: \"" ++ "Untitled" ++ "\"\n" ++
              (if fields.description.getD "" == "" then ""
               else "description: \"" ++ fields.description.getD "" ++ "\"\n") ++
              "---\n\n" ++ ("# " ++ "Untitled" ++ "\n\n") ++
              (if fields.description.getD "" == "" then ""
               else fields.description.getD "" ++ "\n\n") ++
              String.join (ids.map (renderContentRef snap))⟩ := by
        simp only [processPage, assembleFromFields, hrefs, Option.getD_none]
      exact ⟨_, hpp, createFilename_untitled⟩

/-- Claim C10 witness: a concrete page with a present empty title yields the
empty title verbatim and filename `.mdx`, while its absent-title variant
yields `untitled.mdx`. -/
theorem empty_title_used_verbatim_witness :
    (∃ rest, processPage emptySnapshot ⟨"p1", "page", some ⟨some "", none, none⟩⟩ =
      .ok ⟨".mdx",
        "---\ntitle: \"" ++ "" ++ "\"\n" ++ "" ++ "---\n\n" ++
          ("# " ++ "" ++ "\n\n") ++ "" ++ rest⟩) ∧
    (∃ out2,
      processPage emptySnapshot ⟨"p1", "page", some ⟨none, none, none⟩⟩ =
        .ok out2 ∧ out2.filename = "untitled.mdx") :=
  empty_title_used_verbatim emptySnapshot ⟨"p1", "page", some ⟨some "", none, none⟩⟩
    ⟨some "", none, none⟩ rfl rfl (Or.inl rfl)


